import Mathlib

/-!
Verification of the `mixture` library (mixin application and lazily materialized
field attributes) against its natural-language specification.

The embedding models Python class and instance dictionaries as ordered
association lists over `String` keys, mirroring insertion-order semantics of
Python dicts: writing to an existing key replaces the binding in place,
writing a fresh key appends at the end.
-/

namespace Mixture

/-- Lookup in an ordered dictionary: first binding for the key wins
(Python dicts have unique keys, so this is the binding). -/
def dictLookup {α : Type} : List (String × α) → String → Option α
  | [], _ => none
  | (a, b) :: d, k => if a = k then some b else dictLookup d k

/-- Write `d[k] = v`: replace the first binding of `k` in place, or append
a new binding at the end, as Python dicts do. -/
def dictInsert {α : Type} : List (String × α) → String → α → List (String × α)
  | [], k, v => [(k, v)]
  | (a, b) :: d, k, v => if a = k then (k, v) :: d else (a, b) :: dictInsert d k v

/-- `d.update(u)`: insert every binding of `u` into `d`, in order. -/
def dictUpdate {α : Type} (d u : List (String × α)) : List (String × α) :=
  u.foldl (fun acc p => dictInsert acc p.1 p.2) d

/-- `del d[k]`: drop the bindings of key `k`. -/
def dictRemove {α : Type} (d : List (String × α)) (k : String) : List (String × α) :=
  d.filter (fun p => p.1 ≠ k)

/-- Left-biased combination of optional results (used to state update lemmas). -/
def oorElse {α : Type} : Option α → Option α → Option α
  | some v, _ => some v
  | none, b => b

@[simp]
theorem oorElse_some {α : Type} (v : α) (b : Option α) : oorElse (some v) b = some v := rfl

@[simp]
theorem oorElse_none {α : Type} (b : Option α) : oorElse none b = b := rfl

theorem oorElse_assoc {α : Type} (a b c : Option α) :
    oorElse (oorElse a b) c = oorElse a (oorElse b c) := by
  cases a <;> rfl

@[simp]
theorem oorElse_none_right {α : Type} (a : Option α) : oorElse a none = a := by
  cases a <;> rfl

@[simp]
theorem dictLookup_nil {α : Type} (k : String) : dictLookup ([] : List (String × α)) k = none := rfl

@[simp]
theorem dictLookup_dictInsert {α : Type} (d : List (String × α)) (k : String) (v : α) (n : String) :
    dictLookup (dictInsert d k v) n = if n = k then some v else dictLookup d n := by
  induction d with
  | nil =>
    by_cases h : n = k
    · subst h
      simp [dictInsert, dictLookup]
    · have h2 : ¬ k = n := fun hh => h hh.symm
      simp [dictInsert, dictLookup, h, h2]
  | cons p d ih =>
    obtain ⟨a, b⟩ := p
    by_cases hak : a = k
    · subst hak
      by_cases hna : n = a
      · subst hna
        simp [dictInsert, dictLookup]
      · have han : ¬ a = n := fun h => hna h.symm
        simp [dictInsert, dictLookup, hna, han]
    · by_cases hna : n = a
      · subst hna
        have hnk : ¬ n = k := hak
        simp [dictInsert, dictLookup, hak, hnk]
      · have han : ¬ a = n := fun h => hna h.symm
        simp [dictInsert, dictLookup, hak, han, ih]

@[simp]
theorem dictLookup_dictRemove {α : Type} (d : List (String × α)) (k n : String) :
    dictLookup (dictRemove d k) n = if n = k then none else dictLookup d n := by
  induction d with
  | nil => simp [dictRemove, dictLookup]
  | cons p d ih =>
    obtain ⟨a, b⟩ := p
    by_cases hak : a = k
    · subst hak
      have hstep : dictRemove ((a, b) :: d) a = dictRemove d a := by
        simp [dictRemove, List.filter_cons]
      rw [hstep, ih]
      by_cases hna : n = a
      · subst hna
        simp
      · have han : ¬ a = n := fun h => hna h.symm
        simp [dictLookup, hna, han]
    · have hstep : dictRemove ((a, b) :: d) k = (a, b) :: dictRemove d k := by
        simp [dictRemove, List.filter_cons, hak]
      rw [hstep]
      by_cases hna : n = a
      · subst hna
        have hnk : ¬ n = k := hak
        simp [dictLookup, hnk]
      · have han : ¬ a = n := fun h => hna h.symm
        simp [dictLookup, han, ih]

theorem dictLookup_append {α : Type} (l₁ l₂ : List (String × α)) (n : String) :
    dictLookup (l₁ ++ l₂) n = oorElse (dictLookup l₁ n) (dictLookup l₂ n) := by
  induction l₁ with
  | nil => simp
  | cons p l ih =>
    obtain ⟨a, b⟩ := p
    by_cases han : a = n
    · subst han
      simp [dictLookup]
    · simp [dictLookup, han, ih]

theorem dictLookup_dictUpdate {α : Type} (d u : List (String × α)) (n : String) :
    dictLookup (dictUpdate d u) n = oorElse (dictLookup u.reverse n) (dictLookup d n) := by
  induction u generalizing d with
  | nil => simp [dictUpdate]
  | cons p u ih =>
    obtain ⟨a, b⟩ := p
    have step : dictUpdate d ((a, b) :: u) = dictUpdate (dictInsert d a b) u := rfl
    rw [step, ih]
    have hrev : ((a, b) :: u).reverse = u.reverse ++ [(a, b)] := by simp
    rw [hrev, dictLookup_append, oorElse_assoc]
    cases hru : dictLookup u.reverse n with
    | some v => simp
    | none =>
      simp only [oorElse_none]
      rw [dictLookup_dictInsert]
      by_cases hna : n = a
      · subst hna
        simp [dictLookup]
      · have han : ¬ a = n := fun h => hna h.symm
        simp [dictLookup, hna, han]

theorem dictLookup_isSome_iff_mem_keys {α : Type} (d : List (String × α)) (n : String) :
    (dictLookup d n).isSome ↔ n ∈ d.map Prod.fst := by
  induction d with
  | nil => simp [dictLookup]
  | cons p d ih =>
    obtain ⟨a, b⟩ := p
    by_cases han : a = n
    · subst han
      simp [dictLookup]
    · have h2 : ¬ n = a := fun h => han h.symm
      simp [dictLookup, han, h2, ih]

theorem dictLookup_eq_none_of_not_mem_keys {α : Type} {d : List (String × α)} {n : String}
    (h : n ∉ d.map Prod.fst) : dictLookup d n = none := by
  by_contra hc
  exact h ((dictLookup_isSome_iff_mem_keys d n).1 (Option.isSome_iff_ne_none.2 hc))

theorem mem_keys_dictInsert {α : Type} (d : List (String × α)) (k : String) (v : α) (n : String) :
    n ∈ (dictInsert d k v).map Prod.fst ↔ n ∈ d.map Prod.fst ∨ n = k := by
  induction d with
  | nil => simp [dictInsert]
  | cons p d ih =>
    obtain ⟨a, b⟩ := p
    by_cases hak : a = k
    · subst hak
      have hstep : dictInsert ((a, b) :: d) a v = (a, v) :: d := by
        simp [dictInsert]
      rw [hstep]
      simp only [List.map_cons, List.mem_cons]
      tauto
    · have hstep : dictInsert ((a, b) :: d) k v = (a, b) :: dictInsert d k v := by
        simp [dictInsert, hak]
      rw [hstep]
      simp only [List.map_cons, List.mem_cons, ih]
      tauto

theorem nodup_keys_dictInsert {α : Type} (d : List (String × α)) (k : String) (v : α)
    (h : (d.map Prod.fst).Nodup) : ((dictInsert d k v).map Prod.fst).Nodup := by
  induction d with
  | nil => simp [dictInsert]
  | cons p d ih =>
    obtain ⟨a, b⟩ := p
    simp only [List.map, List.nodup_cons] at h
    by_cases hak : a = k
    · subst hak
      simpa [dictInsert, List.nodup_cons] using h
    · simp only [dictInsert, if_neg hak, List.map, List.nodup_cons]
      refine ⟨?_, ih h.2⟩
      rw [mem_keys_dictInsert]
      rintro (hmem | hrfl)
      · exact h.1 hmem
      · exact hak hrfl

theorem mem_keys_dictUpdate {α : Type} (d u : List (String × α)) (n : String) :
    n ∈ (dictUpdate d u).map Prod.fst ↔ n ∈ d.map Prod.fst ∨ n ∈ u.map Prod.fst := by
  induction u generalizing d with
  | nil => simp [dictUpdate]
  | cons p u ih =>
    obtain ⟨a, b⟩ := p
    have step : dictUpdate d ((a, b) :: u) = dictUpdate (dictInsert d a b) u := rfl
    rw [step, ih, mem_keys_dictInsert]
    simp only [List.map, List.mem_cons]
    tauto

theorem nodup_keys_dictUpdate {α : Type} (d u : List (String × α))
    (h : (d.map Prod.fst).Nodup) : ((dictUpdate d u).map Prod.fst).Nodup := by
  induction u generalizing d with
  | nil => simpa [dictUpdate] using h
  | cons p u ih =>
    obtain ⟨a, b⟩ := p
    have step : dictUpdate d ((a, b) :: u) = dictUpdate (dictInsert d a b) u := rfl
    rw [step]
    exact ih _ (nodup_keys_dictInsert d a b h)

theorem dictLookup_reverse_of_nodup {α : Type} (d : List (String × α))
    (h : (d.map Prod.fst).Nodup) (n : String) :
    dictLookup d.reverse n = dictLookup d n := by
  induction d with
  | nil => rfl
  | cons p d ih =>
    obtain ⟨a, b⟩ := p
    simp only [List.map, List.nodup_cons] at h
    have hrev : ((a, b) :: d).reverse = d.reverse ++ [(a, b)] := by simp
    rw [hrev, dictLookup_append, ih h.2]
    by_cases hna : n = a
    · subst hna
      have hnone : dictLookup d n = none := dictLookup_eq_none_of_not_mem_keys h.1
      simp [hnone, dictLookup]
    · have han : ¬ a = n := fun hh => hna hh.symm
      simp [dictLookup, han]

theorem dictLookup_filter {α : Type} (p : String → Bool) (d : List (String × α)) (n : String) :
    dictLookup (d.filter (fun x => p x.1)) n = if p n then dictLookup d n else none := by
  induction d with
  | nil => simp
  | cons q d ih =>
    obtain ⟨a, b⟩ := q
    by_cases hpa : p a
    · rw [List.filter_cons_of_pos (by simpa using hpa)]
      by_cases han : a = n
      · subst han
        simp [dictLookup, hpa]
      · simp [dictLookup, han, ih]
    · rw [List.filter_cons_of_neg (by simpa using hpa)]
      rw [ih]
      by_cases han : a = n
      · subst han
        simp [dictLookup, hpa]
      · simp [dictLookup, han]

/-! ## Mixin application (core.py: apply_mixins, list_all_members_to_copy)

A Python class is modelled by its own member dictionary (`__dict__`, members
are opaque tokens of type `Nat`) together with the optional `__from_mixins__`
attribute as the library reads it with `getattr(dest_cls, FROM_MIXINS_TAG, ())`.
Virtual-subclass registration and the constructor warning have no effect on the
class contents and are omitted.
-/

/-- A Python class: its own `__dict__` plus the `__from_mixins__` tag. -/
structure PyClass where
  dict : List (String × Nat)
  fromMixins : Option (List String)

/-- Python `name.startswith(underscore)`: the first character of the name is
an underscore. -/
def starts_with_underscore (n : String) : Bool :=
  match n.data with
  | [] => false
  | c :: _ => c = '_'

/-- The copy condition of `list_all_members_to_copy`: a member named `n` is
copied when it is in `force_copy`, or it is public (no leading underscore)
and not defined directly in the destination dictionary. -/
def should_copy (force_copy : List String) (dest_dict : List (String × Nat)) (n : String) : Bool :=
  decide (n ∈ force_copy) || (!(starts_with_underscore n) && (dictLookup dest_dict n).isNone)

/-- core.py, list_all_members_to_copy: walk the source `__dict__` in order and
collect every member satisfying `should_copy` into a fresh dict. -/
def list_all_members_to_copy (source_dict dest_dict : List (String × Nat))
    (force_copy : List String) : List (String × Nat) :=
  source_dict.foldl
    (fun acc p => if should_copy force_copy dest_dict p.1 then dictInsert acc p.1 p.2 else acc) []

/-- core.py, apply_mixins (new-style class branch): gather `to_copy` over the
mixins in reverse order, copy every gathered member onto the class and record
the copied names in `__from_mixins__`. -/
def apply_mixins (mixin_classes : List PyClass) (orig_cls : PyClass) : PyClass :=
  let force_copy := orig_cls.fromMixins.getD []
  let to_copy := mixin_classes.reverse.foldl
    (fun acc m => dictUpdate acc (list_all_members_to_copy m.dict orig_cls.dict force_copy)) []
  { dict := dictUpdate orig_cls.dict to_copy, fromMixins := some (to_copy.map Prod.fst) }

theorem should_copy_eq_true_iff (fc : List String) (dd : List (String × Nat)) (n : String) :
    should_copy fc dd n = true ↔
      n ∈ fc ∨ (starts_with_underscore n = false ∧ dictLookup dd n = none) := by
  simp [should_copy, Bool.or_eq_true, Bool.and_eq_true, decide_eq_true_iff,
    Bool.not_eq_true', Option.isNone_iff_eq_none]

/-- The member-gathering fold is a key-filtered copy of the source dictionary,
provided the source dictionary has no duplicate keys (true of every Python
`__dict__`). -/
theorem list_all_members_to_copy_eq_filter (source_dict dest_dict : List (String × Nat))
    (force_copy : List String) (h : (source_dict.map Prod.fst).Nodup) :
    list_all_members_to_copy source_dict dest_dict force_copy =
      source_dict.filter (fun p => should_copy force_copy dest_dict p.1) := by
  have general : ∀ (src acc : List (String × Nat)),
      (src.map Prod.fst).Nodup →
      (∀ k, k ∈ src.map Prod.fst → k ∉ acc.map Prod.fst) →
      src.foldl
        (fun acc p => if should_copy force_copy dest_dict p.1 then dictInsert acc p.1 p.2 else acc)
        acc
        = acc ++ src.filter (fun p => should_copy force_copy dest_dict p.1) := by
    intro src
    induction src with
    | nil => intro acc _ _; simp
    | cons p src ih =>
      intro acc hnodup hdisj
      obtain ⟨a, b⟩ := p
      simp only [List.map_cons, List.nodup_cons] at hnodup
      have hnotacc : a ∉ acc.map Prod.fst := hdisj a (by simp)
      have hins : dictInsert acc a b = acc ++ [(a, b)] := by
        clear hdisj ih
        induction acc with
        | nil => rfl
        | cons q acc ihacc =>
          obtain ⟨c, e⟩ := q
          simp only [List.map_cons, List.mem_cons] at hnotacc
          push_neg at hnotacc
          have hca : ¬ c = a := fun hh => hnotacc.1 hh.symm
          simp [dictInsert, hca, ihacc hnotacc.2]
      by_cases hsc : should_copy force_copy dest_dict a
      · rw [List.foldl_cons, if_pos hsc, hins,
          ih (acc ++ [(a, b)]) hnodup.2 ?_, List.filter_cons_of_pos (by simpa using hsc)]
        · simp
        · intro k hk
          have hka : k ≠ a := fun hke => hnodup.1 (hke ▸ hk)
          have hkacc : k ∉ acc.map Prod.fst := hdisj k (by simp [hk])
          simp [hka, hkacc]
      · rw [List.foldl_cons, if_neg hsc,
          ih acc hnodup.2 (fun k hk => hdisj k (by simp [hk])),
          List.filter_cons_of_neg (by simpa using hsc)]
  have := general source_dict [] h (by simp)
  simpa [list_all_members_to_copy] using this

/-- Lookup characterization of the gathered members. -/
theorem dictLookup_list_all_members_to_copy (source_dict dest_dict : List (String × Nat))
    (force_copy : List String) (n : String) (h : (source_dict.map Prod.fst).Nodup) :
    dictLookup (list_all_members_to_copy source_dict dest_dict force_copy) n =
      if should_copy force_copy dest_dict n then dictLookup source_dict n else none := by
  rw [list_all_members_to_copy_eq_filter source_dict dest_dict force_copy h,
    dictLookup_filter]

/-! ## Field model (core.py: field, NativeField, DescriptorField, validators)

Python values are modelled by `Val` (the library treats them opaquely except
for type checks and the `None`/`True` success convention of validators).
An instance is its `__dict__`. Raised exceptions are the `Exn` inductive;
fallible operations return `Except Exn`.
-/

/-- Python values that can flow through a field. -/
inductive Val where
  | vnone
  | bool (b : Bool)
  | int (n : Int)
  | str (s : String)
deriving DecidableEq

/-- An instance is its attribute dictionary. -/
abbrev Obj := List (String × Val)

/-- The runtime types a field `type=` argument can name. `bool` is a
subclass of `int` in Python, reflected by `isinstance`. -/
inductive PyType where
  | bool
  | int
  | str
deriving DecidableEq

/-- Python `isinstance(value, t)`. -/
def isinstance : Val → PyType → Bool
  | .bool _, .bool => true
  | .bool _, .int => true
  | .int _, .int => true
  | .str _, .str => true
  | _, _ => false

/-- Exceptions raised by the modelled code paths. -/
inductive Exn where
  | mandatoryFieldInit (field_name : String) (obj : Obj)
  | typeError (field_name : String) (expected : PyType) (got : Val)
  | valueError (msg : String)
  | unsupportedOnNativeField (msg : String)
  | attributeError (name : String)
  | failure (help_msg : Option String) (err_type : Option String)
  | atLeastOneFailed (wrong_value : Val)
  | validationError (name : String) (wrong_value : Val)
deriving DecidableEq

/-- A user validation callable, indexed by the number of positional
parameters it declares (`getfullargspec` in `make_validator`). The second
argument of the three-parameter form is the field, passed through as its
storage name. A call either returns a value or raises. -/
inductive VFunc where
  | a0
  | a1 (f : Val → Except Exn Val)
  | a2 (f : Obj → Val → Except Exn Val)
  | a3 (f : Obj → String → Val → Except Exn Val)

/-- Declared positional parameter count of a validation callable. -/
def VFunc.nb_args : VFunc → Nat
  | .a0 => 0
  | .a1 _ => 1
  | .a2 _ => 2
  | .a3 _ => 3

/-- One validator definition: a bare callable or a tuple with optional help
message and error kind, as accepted by `make_validator`. Error kinds are
identified by name. -/
inductive VDef where
  | fn (vf : VFunc)
  | tup1 (vf : VFunc)
  | tup2s (vf : VFunc) (msg : String)
  | tup2e (vf : VFunc) (err : String)
  | tup3 (vf : VFunc) (msg : String) (err : String)

/-- The (callable, help message, error kind) triple `make_validator` extracts
from a validator definition. -/
def VDef.parts : VDef → VFunc × Option String × Option String
  | .fn vf => (vf, none, none)
  | .tup1 vf => (vf, none, none)
  | .tup2s vf msg => (vf, some msg, none)
  | .tup2e vf err => (vf, none, some err)
  | .tup3 vf msg err => (vf, some msg, some err)

/-- The callable inside a validator definition. -/
def VDef.func (v : VDef) : VFunc := v.parts.1

/-- valid8: a validation result means success when it is `True` or `None`. -/
def result_is_success (r : Val) : Bool :=
  r = Val.bool true || r = Val.vnone

/-- valid8 failure_raiser: call the wrapped checker and raise a `Failure`
(decorated with the help message and error kind) when it raises or returns a
non-success result. -/
def failure_raiser (f : Val → Except Exn Val) (help_msg err_type : Option String) :
    Val → Except Exn Val :=
  fun val =>
    match f val with
    | .error _ => .error (.failure help_msg err_type)
    | .ok r => if result_is_success r then .ok r else .error (.failure help_msg err_type)

/-- The shape of the `validate(obj, field, val)` closures built by
`make_validator`: they return `None` on success and raise otherwise. -/
abbrev Validate := Obj → String → Val → Except Exn Val

/-- core.py, make_validator: reject callables with zero declared parameters,
then wrap the callable (dispatching on its declared parameter count) into a
uniform `validate(obj, field, val)` closure that returns `None` on success. -/
def make_validator (validator : VDef) : Except Exn Validate :=
  let parts := validator.parts
  match parts.1 with
  | .a0 =>
    .error (.valueError "validation function should accept 1, 2, or 3 arguments at least")
  | .a1 f =>
    .ok fun _obj _field val =>
      match failure_raiser f parts.2.1 parts.2.2 val with
      | .error e => .error e
      | .ok _ => .ok .vnone
  | .a2 f =>
    .ok fun obj _field val =>
      match failure_raiser (fun v => f obj v) parts.2.1 parts.2.2 val with
      | .error e => .error e
      | .ok _ => .ok .vnone
  | .a3 f =>
    .ok fun obj field_arg val =>
      match failure_raiser (fun v => f obj field_arg v) parts.2.1 parts.2.2 val with
      | .error e => .error e
      | .ok _ => .ok .vnone

/-- core.py, and_with_additional_args inner loop `and_v_`: run each validator;
on an exception raise the aggregate error, otherwise test the (faulty)
condition `(res is not None) or (res is not True)` and raise the aggregate
error when it holds; return `True` after the loop. -/
def and_v_run (obj : Obj) (field_name : String) (x : Val) : List Validate → Except Exn Val
  | [] => .ok (.bool true)
  | validator :: rest =>
    match validator obj field_name x with
    | .error _ => .error (.atLeastOneFailed x)
    | .ok res =>
      if res ≠ Val.vnone ∨ res ≠ Val.bool true then .error (.atLeastOneFailed x)
      else and_v_run obj field_name x rest

/-- core.py, and_with_additional_args: a single validator is returned as is,
otherwise the `and_v_` conjunction closure is built. -/
def and_with_additional_args (all_validators : List Validate) : Validate :=
  match all_validators with
  | [v] => v
  | vs => fun obj field_name x => and_v_run obj field_name x vs

/-- core.py, FieldValidator: holds the combined main validation function. -/
structure FieldValidator where
  main_function : Validate

/-- FieldValidator construction: combine all validators with
`and_with_additional_args`. -/
def FieldValidator.mk_of (all_validators : List Validate) : FieldValidator :=
  ⟨and_with_additional_args all_validators⟩

/-- core.py, FieldValidator.validate: bind the `(obj, field)` context and run
valid8 `assert_valid` under the public field name (the storage name without
its underscore); a raising or non-success main function raises a
`ValidationError`. -/
def FieldValidator.validate (fv : FieldValidator) (obj : Obj) (field_name : String)
    (value : Val) : Except Exn Unit :=
  match fv.main_function obj field_name value with
  | .error _ => .error (.validationError (field_name.drop 1) value)
  | .ok res =>
    if result_is_success res then .ok ()
    else .error (.validationError (field_name.drop 1) value)

/-- The `validator=` argument of `field`: a single bare callable, or an
iterable of validator definitions. (The mapping form normalizes each entry to
the same triples and is not needed by the claims.) -/
inductive Validators where
  | single (vf : VFunc)
  | list (vds : List VDef)

/-- Convert each validator definition in order, propagating the first error
(the generator built over the iterable is consumed by the `FieldValidator`
constructor call, so a bad element raises there). -/
def map_make_validators : List VDef → Except Exn (List Validate)
  | [] => .ok []
  | v :: rest =>
    match make_validator v with
    | .error e => .error e
    | .ok vv =>
      match map_make_validators rest with
      | .error e => .error e
      | .ok vs => .ok (vv :: vs)

/-- core.py, make_validators: normalize the `validator` argument into a
`FieldValidator`, or `None` when no validators were given. -/
def make_validators (validators : Option Validators) : Except Exn (Option FieldValidator) :=
  match validators with
  | none => .ok none
  | some (.single vf) =>
    match make_validator (.fn vf) with
    | .error e => .error e
    | .ok v => .ok (some (FieldValidator.mk_of [v]))
  | some (.list vds) =>
    match map_make_validators vds with
    | .error e => .error e
    | .ok vs => .ok (some (FieldValidator.mk_of vs))

/-- The `default` slot of a field: the `NO_DEFAULT` sentinel, a literal
default value, or a default factory. -/
inductive DefaultSlot where
  | no_default
  | value (v : Val)
  | factory (f : Unit → Val)

/-! ### NativeField -/

/-- core.py, NativeField: the fast variant, replaced by a plain instance
attribute on first access. It has no `__set__` and no `__delete__`. -/
structure NativeField where
  default : DefaultSlot
  name : Option String
  doc : Option String

/-- NativeField constructor: only one of `default` and `default_factory` may
be given. (`PY36` holds, so a missing `name` is allowed.) -/
def NativeField.init (default : Option Val) (default_factory : Option (Unit → Val))
    (doc : Option String) (name : Option String) : Except Exn NativeField :=
  match default_factory with
  | some fac =>
    match default with
    | some _ => .error (.valueError "Only one of default and default_factory should be provided")
    | none => .ok { default := .factory fac, name := name, doc := doc }
  | none =>
    .ok { default := (match default with | some v => .value v | none => .no_default),
          name := name, doc := doc }

/-- NativeField.__set_name__: an explicitly declared name must match the
class-level binding name; otherwise the binding name is adopted. -/
def NativeField.set_name (f : NativeField) (name : String) : Except Exn NativeField :=
  match f.name with
  | some declared =>
    if declared ≠ name then
      .error (.valueError "field name does not correspond to explicitly declared name")
    else .ok f
  | none => .ok { f with name := some name }

/-- NativeField.__get__: return the stored value if present; otherwise raise
for a mandatory field, or materialize the default (factory call or literal)
into the instance dictionary and return it. -/
def NativeField.get (f : NativeField) (obj : Obj) : Except Exn (Val × Obj) :=
  let n := f.name.getD ""
  match dictLookup obj n with
  | some value => .ok (value, obj)
  | none =>
    match f.default with
    | .no_default => .error (.mandatoryFieldInit n obj)
    | .value v => .ok (v, dictInsert obj n v)
    | .factory fac => .ok (fac (), dictInsert obj n (fac ()))

/-- Attribute read through a NativeField: a non-data descriptor is shadowed by
the instance dictionary; otherwise `__get__` runs. -/
def native_read (f : NativeField) (obj : Obj) : Except Exn (Val × Obj) :=
  match dictLookup obj (f.name.getD "") with
  | some value => .ok (value, obj)
  | none => f.get obj

/-- Attribute write through a NativeField: no `__set__`, so a plain instance
dictionary write. -/
def native_write (obj : Obj) (name : String) (value : Val) : Obj :=
  dictInsert obj name value

/-- Attribute deletion through a NativeField: no `__delete__`, so a plain
instance dictionary deletion, raising `AttributeError` when the key is
absent. -/
def native_delete (obj : Obj) (name : String) : Except Exn Obj :=
  match dictLookup obj name with
  | some _ => .ok (dictRemove obj name)
  | none => .error (.attributeError name)

/-! ### DescriptorField -/

/-- core.py, DescriptorField: the validated variant. After construction its
`name` is the storage key, i.e. the declared name with a leading
underscore. -/
structure DescriptorField where
  type : Option PyType
  default : DefaultSlot
  validators : Option FieldValidator
  name : Option String
  doc : Option String

/-- DescriptorField constructor: default/default_factory exclusivity check,
then validator normalization (which may raise), then the name is stored with
a leading underscore. -/
def DescriptorField.init (type : Option PyType) (default : Option Val)
    (default_factory : Option (Unit → Val)) (validator : Option Validators)
    (doc : Option String) (name : Option String) : Except Exn DescriptorField :=
  let dslot : Except Exn DefaultSlot :=
    match default_factory with
    | some fac =>
      match default with
      | some _ => .error (.valueError "Only one of default and default_factory should be provided")
      | none => .ok (.factory fac)
    | none => .ok (match default with | some v => .value v | none => .no_default)
  match dslot with
  | .error e => .error e
  | .ok slot =>
    match make_validators validator with
    | .error e => .error e
    | .ok vals =>
      .ok { type := type, default := slot, validators := vals,
            name := name.map (fun n => "_" ++ n), doc := doc }

/-- DescriptorField.__set_name__: the stored name without its underscore must
match the class-level binding name; a missing name is adopted with the
underscore added. -/
def DescriptorField.set_name (f : DescriptorField) (name : String) :
    Except Exn DescriptorField :=
  match f.name with
  | some stored =>
    if stored.drop 1 ≠ name then
      .error (.valueError "field name does not correspond to explicitly declared name")
    else .ok f
  | none => .ok { f with name := some ("_" ++ name) }

/-- DescriptorField.__get__: look up the storage key on the instance; when
absent, raise for a mandatory field (note: the error receives `self.name`,
the underscored storage key) or materialize the default. -/
def DescriptorField.get (f : DescriptorField) (obj : Obj) : Except Exn (Val × Obj) :=
  match dictLookup obj (f.name.getD "") with
  | some value => .ok (value, obj)
  | none =>
    match f.default with
    | .no_default => .error (.mandatoryFieldInit (f.name.getD "") obj)
    | .value v => .ok (v, dictInsert obj (f.name.getD "") v)
    | .factory fac => .ok (fac (), dictInsert obj (f.name.getD "") (fac ()))

/-- DescriptorField.__set__: type check (against the declared type, when one
was given), then validator run, then store under the underscored key. -/
def DescriptorField.set (f : DescriptorField) (obj : Obj) (value : Val) : Except Exn Obj :=
  match (match f.type with
         | some t =>
           if isinstance value t then Except.ok ()
           else Except.error (Exn.typeError ((f.name.getD "").drop 1) t value)
         | none => Except.ok ()) with
  | .error e => .error e
  | .ok _ =>
    match f.validators with
    | some fv =>
      match fv.validate obj (f.name.getD "") value with
      | .error e => .error e
      | .ok _ => .ok (dictInsert obj (f.name.getD "") value)
    | none => .ok (dictInsert obj (f.name.getD "") value)

/-- DescriptorField.__delete__: a bare `delattr` of the storage key, raising
`AttributeError` when it is absent. -/
def DescriptorField.delete (f : DescriptorField) (obj : Obj) : Except Exn Obj :=
  match dictLookup obj (f.name.getD "") with
  | some _ => .ok (dictRemove obj (f.name.getD ""))
  | none => .error (.attributeError (f.name.getD ""))

/-! ### The field constructor -/

/-- The two field variants `field` can produce. -/
inductive FieldObj where
  | native (f : NativeField)
  | descriptor (f : DescriptorField)

/-- core.py, field: explicit `use_descriptor=False` with a validator raises
`UnsupportedOnNativeFieldError`; a declared type may still be given but is
dropped on the fast path. Otherwise a descriptor is needed exactly when a
type or validators were supplied or `use_descriptor` is truthy. -/
def field (type : Option PyType) (default : Option Val)
    (default_factory : Option (Unit → Val)) (validator : Option Validators)
    (doc : Option String) (name : Option String) (use_descriptor : Option Bool) :
    Except Exn FieldObj :=
  if use_descriptor = some false then
    if validator.isSome then
      .error (.unsupportedOnNativeField
        "use_descriptor=False can not be set if a validator or converter is provided")
    else
      match NativeField.init default default_factory doc name with
      | .error e => .error e
      | .ok f => .ok (.native f)
  else
    let needs_descriptor := type.isSome || validator.isSome || use_descriptor.getD false
    if needs_descriptor then
      match DescriptorField.init type default default_factory validator doc name with
      | .error e => .error e
      | .ok f => .ok (.descriptor f)
    else
      match NativeField.init default default_factory doc name with
      | .error e => .error e
      | .ok f => .ok (.native f)

/-! ## Claim theorems -/

/-- Storage keys of the descriptor variant differ from the declared name. -/
theorem underscored_ne (n : String) : ("_" ++ n) ≠ n := by
  intro h
  have hlen := congrArg String.length h
  rw [String.length_append] at hlen
  have h1 : "_".length = 1 := rfl
  omega

/-- C5: a member of the mixin is selected for copying if and only if its name
was recorded as mixin-copied (the `force_copy` names from `__from_mixins__`),
or it does not start with an underscore and is not defined directly in the
destination class member dictionary. The condition consults only the
destination `__dict__` itself, so members the destination merely inherits do
not block the copy. The source dictionary is a Python `__dict__` and hence
has no duplicate keys. -/
theorem C5_member_selection (source_dict dest_dict : List (String × Nat))
    (force_copy : List String) (n : String)
    (h : (source_dict.map Prod.fst).Nodup) :
    dictLookup (list_all_members_to_copy source_dict dest_dict force_copy) n =
      if n ∈ force_copy ∨ (starts_with_underscore n = false ∧ dictLookup dest_dict n = none)
      then dictLookup source_dict n else none := by
  rw [dictLookup_list_all_members_to_copy source_dict dest_dict force_copy n h]
  by_cases hc : should_copy force_copy dest_dict n = true
  · rw [if_pos hc, if_pos ((should_copy_eq_true_iff force_copy dest_dict n).1 hc)]
  · rw [if_neg hc, if_neg (fun hp => hc ((should_copy_eq_true_iff force_copy dest_dict n).2 hp))]

theorem oorElse_isSome {α : Type} (a b : Option α) :
    (oorElse a b).isSome = (a.isSome || b.isSome) := by
  cases a <;> simp

theorem nodup_keys_list_all_members_to_copy (src dst : List (String × Nat)) (fc : List String)
    (h : (src.map Prod.fst).Nodup) :
    ((list_all_members_to_copy src dst fc).map Prod.fst).Nodup := by
  rw [list_all_members_to_copy_eq_filter src dst fc h]
  exact List.Nodup.sublist (List.Sublist.map Prod.fst (List.filter_sublist src)) h

/-- C4: applying mixins `[A, B]` to a class `C` whose own dictionary holds
none of the public names of `A` or `B` and which carries no prior
`__from_mixins__` record: every public name defined in both `A` and `B` ends
up bound to the member of `A` (the left-most mixin wins because the mixins
are processed in reverse), and the recorded copied-name list contains exactly
the public member names of `A` and of `B`. -/
theorem C4_leftmost_wins_and_union (A B C : PyClass)
    (hA : (A.dict.map Prod.fst).Nodup) (hB : (B.dict.map Prod.fst).Nodup)
    (hC : ∀ n, starts_with_underscore n = false →
      ((dictLookup A.dict n).isSome ∨ (dictLookup B.dict n).isSome) →
      dictLookup C.dict n = none)
    (hCfm : C.fromMixins = none) :
    (∀ n ma, starts_with_underscore n = false →
      dictLookup A.dict n = some ma → (dictLookup B.dict n).isSome →
      dictLookup (apply_mixins [A, B] C).dict n = some ma)
    ∧ (∀ n, n ∈ (apply_mixins [A, B] C).fromMixins.getD [] ↔
      (starts_with_underscore n = false ∧
        ((dictLookup A.dict n).isSome ∨ (dictLookup B.dict n).isSome))) := by
  have happ : apply_mixins [A, B] C =
      { dict := dictUpdate C.dict
          (dictUpdate (dictUpdate [] (list_all_members_to_copy B.dict C.dict []))
            (list_all_members_to_copy A.dict C.dict [])),
        fromMixins := some
          ((dictUpdate (dictUpdate [] (list_all_members_to_copy B.dict C.dict []))
            (list_all_members_to_copy A.dict C.dict [])).map Prod.fst) } := by
    simp [apply_mixins, hCfm, dictUpdate]
  have hnA := nodup_keys_list_all_members_to_copy A.dict C.dict [] hA
  have hnB := nodup_keys_list_all_members_to_copy B.dict C.dict [] hB
  have hnBu : ((dictUpdate [] (list_all_members_to_copy B.dict C.dict [])).map Prod.fst).Nodup :=
    nodup_keys_dictUpdate [] _ (by simp)
  have hntc : ((dictUpdate (dictUpdate [] (list_all_members_to_copy B.dict C.dict []))
      (list_all_members_to_copy A.dict C.dict [])).map Prod.fst).Nodup :=
    nodup_keys_dictUpdate _ _ hnBu
  have hlooktc : ∀ n,
      dictLookup (dictUpdate (dictUpdate [] (list_all_members_to_copy B.dict C.dict []))
        (list_all_members_to_copy A.dict C.dict [])) n =
      oorElse (dictLookup (list_all_members_to_copy A.dict C.dict []) n)
        (dictLookup (list_all_members_to_copy B.dict C.dict []) n) := by
    intro n
    rw [dictLookup_dictUpdate, dictLookup_reverse_of_nodup _ hnA n,
      dictLookup_dictUpdate, dictLookup_reverse_of_nodup _ hnB n]
    simp
  constructor
  · intro n ma hpub hAn hBn
    have hCn : dictLookup C.dict n = none := hC n hpub (Or.inl (by simp [hAn]))
    have hsc : should_copy [] C.dict n = true :=
      (should_copy_eq_true_iff [] C.dict n).2 (Or.inr ⟨hpub, hCn⟩)
    have hltcAn : dictLookup (list_all_members_to_copy A.dict C.dict []) n = some ma := by
      rw [dictLookup_list_all_members_to_copy A.dict C.dict [] n hA, if_pos hsc, hAn]
    rw [happ]
    show dictLookup (dictUpdate C.dict _) n = some ma
    rw [dictLookup_dictUpdate, dictLookup_reverse_of_nodup _ hntc n, hlooktc n, hltcAn]
    rfl
  · intro n
    rw [happ]
    show n ∈ (dictUpdate (dictUpdate [] (list_all_members_to_copy B.dict C.dict []))
      (list_all_members_to_copy A.dict C.dict [])).map Prod.fst ↔ _
    rw [← dictLookup_isSome_iff_mem_keys, hlooktc n, oorElse_isSome,
      dictLookup_list_all_members_to_copy A.dict C.dict [] n hA,
      dictLookup_list_all_members_to_copy B.dict C.dict [] n hB]
    constructor
    · intro hor
      by_cases hsc : should_copy [] C.dict n = true
      · have hcond := (should_copy_eq_true_iff [] C.dict n).1 hsc
        have hpub : starts_with_underscore n = false := by
          rcases hcond with hmem | hcond
        -- membership in the empty force-copy list is impossible
          · exact absurd hmem (List.not_mem_nil n)
          · exact hcond.1
        refine ⟨hpub, ?_⟩
        rw [if_pos hsc, if_pos hsc] at hor
        rcases Bool.or_eq_true_iff.1 hor with h | h
        · exact Or.inl h
        · exact Or.inr h
      · rw [if_neg hsc, if_neg hsc] at hor
        simp at hor
    · rintro ⟨hpub, hor⟩
      have hCn : dictLookup C.dict n = none := hC n hpub hor
      have hsc : should_copy [] C.dict n = true :=
        (should_copy_eq_true_iff [] C.dict n).2 (Or.inr ⟨hpub, hCn⟩)
      rw [if_pos hsc, if_pos hsc]
      rcases hor with h | h
      · exact Bool.or_eq_true_iff.2 (Or.inl h)
      · exact Bool.or_eq_true_iff.2 (Or.inr h)

/-- Concrete classes exercising C4: `foo` is defined in both mixins. -/
def mixA : PyClass := ⟨[("foo", 1)], none⟩

/-- Second mixin for the C4 witness. -/
def mixB : PyClass := ⟨[("foo", 2), ("bar", 3)], none⟩

/-- Fresh destination class for the C4 witness. -/
def mixC : PyClass := ⟨[], none⟩

/-- C4 witness. -/
theorem C4_leftmost_wins_and_union_witness :
    dictLookup (apply_mixins [mixA, mixB] mixC).dict "foo" = some 1 ∧
    ("bar" ∈ (apply_mixins [mixA, mixB] mixC).fromMixins.getD []) := by
  have h := C4_leftmost_wins_and_union mixA mixB mixC (by decide) (by decide)
    (fun _ _ _ => rfl) rfl
  exact ⟨h.1 "foo" 1 (by decide) (by decide) (by decide),
    (h.2 "bar").2 ⟨by decide, Or.inr (by decide)⟩⟩

/-- C5 witness. -/
theorem C5_member_selection_witness :
    dictLookup (list_all_members_to_copy [("foo", 1), ("_p", 2)] [("bar", 7)] []) "foo" =
      if ("foo" : String) ∈ ([] : List String) ∨
          (starts_with_underscore "foo" = false ∧ dictLookup [("bar", 7)] "foo" = none)
      then dictLookup [("foo", 1), ("_p", 2)] "foo" else none :=
  C5_member_selection [("foo", 1), ("_p", 2)] [("bar", 7)] [] "foo" (by decide)

/-! ### Helper lemmas about the descriptor operations -/

theorem DescriptorField.set_ok_eq (f : DescriptorField) (obj : Obj) (value : Val) (obj2 : Obj)
    (h : f.set obj value = .ok obj2) : obj2 = dictInsert obj (f.name.getD "") value := by
  unfold DescriptorField.set at h
  split at h
  · exact Except.noConfusion h
  · split at h
    · split at h
      · exact Except.noConfusion h
      · exact (Except.ok.inj h).symm
    · exact (Except.ok.inj h).symm

theorem DescriptorField.get_ok_state (f : DescriptorField) (obj : Obj) (v : Val) (obj2 : Obj)
    (h : f.get obj = .ok (v, obj2)) :
    obj2 = obj ∨ ∃ w, obj2 = dictInsert obj (f.name.getD "") w := by
  unfold DescriptorField.get at h
  split at h
  · exact Or.inl (congrArg Prod.snd (Except.ok.inj h)).symm
  · split at h
    · exact Except.noConfusion h
    · exact Or.inr ⟨_, (congrArg Prod.snd (Except.ok.inj h)).symm⟩
    · exact Or.inr ⟨_, (congrArg Prod.snd (Except.ok.inj h)).symm⟩

theorem DescriptorField.delete_ok_eq (f : DescriptorField) (obj : Obj) (obj2 : Obj)
    (h : f.delete obj = .ok obj2) : obj2 = dictRemove obj (f.name.getD "") := by
  unfold DescriptorField.delete at h
  split at h
  · exact (Except.ok.inj h).symm
  · exact Except.noConfusion h

/-! ### Field claims -/

/-- Attribute write on an instance right after constructing a field: routed
through `DescriptorField.__set__` for the descriptor variant, and a plain
instance dictionary write for the native variant (which has no `__set__`);
a construction error propagates. -/
def write_after_construct (fo : Except Exn FieldObj) (obj : Obj) (value : Val) :
    Except Exn Obj :=
  match fo with
  | .error e => .error e
  | .ok (.native f) => .ok (native_write obj (f.name.getD "") value)
  | .ok (.descriptor f) => f.set obj value

/-- A validation callable that accepts every value by returning `True`. -/
def accept_all : VFunc := .a1 (fun _ => .ok (.bool true))

/-- C1 (code bug witness): a field configured with TWO validator rules that
both accept every value (each returns `True`) still raises the aggregate
validation error on write. The loop in `and_with_additional_args` tests
`(res is not None) or (res is not True)`, which holds for every result, so
with two or more configured rules every write raises even though each rule
accepts; the preserved comment and the repository tests show the intended
condition was `not result_is_success(res)`. -/
theorem C1_two_accepting_validators_write_raises :
    write_after_construct
      (field none none none (some (.list [.fn accept_all, .fn accept_all])) none (some "f") none)
      [] (.str "hey")
      = .error (.validationError "f" (.str "hey")) := rfl

/-- A mandatory descriptor field with declared name `m` (storage key `_m`),
as built by `field(name=m)` with a declared type. -/
def unsetField : DescriptorField :=
  { type := none, default := .no_default, validators := none, name := some "_m", doc := none }

/-- C2 counterexample: deleting a never-set field is NOT a silent no-op; both
variants raise `AttributeError` on a fresh instance (the descriptor variant
delegates to a bare `delattr`, the native variant has no `__delete__` so the
plain instance dictionary deletion raises). -/
theorem C2_counterexample_delete_unset_raises :
    unsetField.delete [] = .error (.attributeError "_m") ∧
    native_delete [] "m" = .error (.attributeError "m") :=
  ⟨rfl, rfl⟩

/-- C2 amended: deleting a set field reverts the pair to the unset state (the
storage key disappears, so the next read repeats the default/mandatory
logic), for both variants; deleting a never-set field raises
`AttributeError` instead of completing silently. -/
theorem C2_amended_delete_semantics (f : DescriptorField) (n : String) (obj : Obj) (v : Val)
    (hn : f.name = some n) :
    (dictLookup obj n = some v →
      f.delete obj = .ok (dictRemove obj n) ∧ dictLookup (dictRemove obj n) n = none)
    ∧ (dictLookup obj n = none → f.delete obj = .error (.attributeError n))
    ∧ (dictLookup obj n = some v →
      native_delete obj n = .ok (dictRemove obj n) ∧ dictLookup (dictRemove obj n) n = none)
    ∧ (dictLookup obj n = none → native_delete obj n = .error (.attributeError n)) := by
  refine ⟨fun hset => ⟨?_, by simp⟩, fun hunset => ?_, fun hset => ⟨?_, by simp⟩,
    fun hunset => ?_⟩
  · simp [DescriptorField.delete, hn, hset]
  · simp [DescriptorField.delete, hn, hunset]
  · simp [native_delete, hset]
  · simp [native_delete, hunset]

/-- C2 witness. -/
theorem C2_amended_delete_semantics_witness :
    unsetField.delete [("_m", Val.bool true)] = .ok (dictRemove [("_m", Val.bool true)] "_m") ∧
    dictLookup (dictRemove [("_m", Val.bool true)] "_m") "_m" = none :=
  (C2_amended_delete_semantics unsetField "_m" [("_m", Val.bool true)] (.bool true) rfl).1 rfl

/-- The descriptor field produced by `field(type=int, name=m)`. -/
def typedMandatory : DescriptorField :=
  { type := some .int, default := .no_default, validators := none, name := some "_m", doc := none }

/-- C3 counterexample: the descriptor variant built from declared name `m`
raises a mandatory-field error that carries the underscored storage key `_m`,
not the declared name `m` (`__get__` passes `self.name` unstripped). -/
theorem C3_counterexample_error_carries_storage_name :
    field (some .int) none none none none (some "m") none = .ok (.descriptor typedMandatory) ∧
    typedMandatory.get [] = .error (.mandatoryFieldInit "_m" []) ∧
    ("_m" : String) ≠ "m" :=
  ⟨rfl, rfl, by decide⟩

/-- The native field produced by `field(name=m)` with no default. -/
def mandatoryNative : NativeField :=
  { default := .no_default, name := some "m", doc := none }

/-- C3 amended: on a first read of a never-written, no-default field, the
native variant raises an error carrying the declared field name and the
instance, while the descriptor variant raises an error carrying the
underscore-prefixed storage name and the instance. -/
theorem C3_amended_mandatory_error_names (n : String) (obj : Obj)
    (fN : NativeField) (fD : DescriptorField)
    (hNname : fN.name = some n) (hNdef : fN.default = .no_default)
    (hDname : fD.name = some ("_" ++ n)) (hDdef : fD.default = .no_default)
    (hobjN : dictLookup obj n = none) (hobjD : dictLookup obj ("_" ++ n) = none) :
    fN.get obj = .error (.mandatoryFieldInit n obj) ∧
    fD.get obj = .error (.mandatoryFieldInit ("_" ++ n) obj) := by
  constructor
  · simp [NativeField.get, hNname, hobjN, hNdef]
  · simp [DescriptorField.get, hDname, hobjD, hDdef]

/-- C3 witness. -/
theorem C3_amended_mandatory_error_names_witness :
    mandatoryNative.get [] = .error (.mandatoryFieldInit "m" []) ∧
    unsetField.get [] = .error (.mandatoryFieldInit ("_" ++ "m") []) :=
  C3_amended_mandatory_error_names "m" [] mandatoryNative unsetField
    rfl rfl (by decide) rfl rfl rfl

/-- C6: supplying validators together with an explicit `use_descriptor=False`
raises `UnsupportedOnNativeFieldError` at construction time, before any field
object is produced, whatever the other arguments are. -/
theorem C6_use_descriptor_false_with_validator_raises (type : Option PyType)
    (default : Option Val) (default_factory : Option (Unit → Val)) (vs : Validators)
    (doc name : Option String) :
    field type default default_factory (some vs) doc name (some false) =
      .error (.unsupportedOnNativeField
        "use_descriptor=False can not be set if a validator or converter is provided") := by
  simp [field]

/-- C7: a field with a literal default and neither type nor validators is the
native variant; a fresh instance reads the default (which is materialized
into the instance dictionary), a write stores the new value, reads return it,
and after deletion a read returns the default again — write then delete is
the identity on the observable value. -/
theorem C7_default_roundtrip (v w : Val) (n : String) :
    field none (some v) none none none (some n) none =
      .ok (.native { default := .value v, name := some n, doc := none }) ∧
    native_read { default := .value v, name := some n, doc := none } [] = .ok (v, [(n, v)]) ∧
    native_write [(n, v)] n w = [(n, w)] ∧
    native_read { default := .value v, name := some n, doc := none } [(n, w)] =
      .ok (w, [(n, w)]) ∧
    native_delete [(n, w)] n = .ok [] ∧
    native_read { default := .value v, name := some n, doc := none } [] = .ok (v, [(n, v)]) := by
  refine ⟨rfl, rfl, ?_, ?_, ?_, rfl⟩
  · simp [native_write, dictInsert]
  · simp [native_read, dictLookup]
  · simp [native_delete, dictLookup, dictRemove, List.filter]

/-- C8: `use_descriptor=False` with a declared type but no validators does
not raise: it returns the fast native variant, and the declared type is
never checked on writes — a value of a non-matching runtime type is stored
and read back without error. -/
theorem C8_fastpath_ignores_type (t : PyType) (default : Option Val) (doc : Option String)
    (n : String) (w : Val) (obj : Obj) (h : isinstance w t = false) :
    ∃ f : NativeField,
      field (some t) default none none doc (some n) (some false) = .ok (.native f)
      ∧ f.name = some n
      ∧ native_read f (native_write obj n w) = .ok (w, native_write obj n w) := by
  refine ⟨{ default := (match default with | some v => .value v | none => .no_default),
            name := some n, doc := doc }, rfl, rfl, ?_⟩
  simp [native_read, native_write]

/-- C8 witness: an int is stored and read back through a str-typed fast
field. -/
theorem C8_fastpath_ignores_type_witness :
    ∃ f : NativeField,
      field (some .str) none none none none (some "x") (some false) = .ok (.native f)
      ∧ f.name = some "x"
      ∧ native_read f (native_write [] "x" (.int 1)) = .ok (.int 1, native_write [] "x" (.int 1)) :=
  C8_fastpath_ignores_type .str none none "x" (.int 1) [] (by decide)

/-- C9: a validator whose callable declares zero positional parameters makes
the field constructor raise a `ValueError` during validator normalization
(construction time), both for a bare zero-parameter callable and for one
inside an iterable, for every argument combination that reaches the
descriptor construction path. -/
theorem C9_zero_arg_validator_rejected_at_construction (type : Option PyType)
    (default : Option Val) (doc name : Option String) (use_descriptor : Option Bool)
    (vd : VDef) (hvd : vd.func = .a0) (hud : use_descriptor ≠ some false) :
    field type default none (some (.list [vd])) doc name use_descriptor =
      .error (.valueError "validation function should accept 1, 2, or 3 arguments at least")
    ∧ field type default none (some (.single .a0)) doc name use_descriptor =
      .error (.valueError "validation function should accept 1, 2, or 3 arguments at least") := by
  have h1 : vd.parts.1 = .a0 := hvd
  have hmk : make_validator vd =
      .error (.valueError "validation function should accept 1, 2, or 3 arguments at least") := by
    simp only [make_validator]
    rw [h1]
  have hmapm : map_make_validators [vd] =
      .error (.valueError "validation function should accept 1, 2, or 3 arguments at least") := by
    simp [map_make_validators, hmk]
  constructor
  · simp [field, hud, DescriptorField.init, make_validators, hmapm]
  · simp [field, hud, DescriptorField.init, make_validators, make_validator, VDef.parts]

/-- C9 witness. -/
theorem C9_zero_arg_validator_rejected_at_construction_witness :
    field none none none (some (.list [.fn .a0])) none (some "x") none =
      .error (.valueError "validation function should accept 1, 2, or 3 arguments at least")
    ∧ field none none none (some (.single .a0)) none (some "x") none =
      .error (.valueError "validation function should accept 1, 2, or 3 arguments at least") :=
  C9_zero_arg_validator_rejected_at_construction none none none (some "x") none
    (.fn .a0) rfl (by decide)

/-- C10: a descriptor field declared with name `n` stores, reads and deletes
through the single storage key `_n`; the key `n` itself is never added to or
removed from the instance dictionary by any field operation. -/
theorem C10_storage_key_is_underscored (f : DescriptorField) (n : String) (obj : Obj)
    (value : Val) (hn : f.name = some ("_" ++ n)) :
    (∀ obj2, f.set obj value = .ok obj2 →
      obj2 = dictInsert obj ("_" ++ n) value ∧
      dictLookup obj2 ("_" ++ n) = some value ∧
      dictLookup obj2 n = dictLookup obj n)
    ∧ (∀ v obj2, f.get obj = .ok (v, obj2) → dictLookup obj2 n = dictLookup obj n)
    ∧ (∀ obj2, f.delete obj = .ok obj2 →
      obj2 = dictRemove obj ("_" ++ n) ∧ dictLookup obj2 n = dictLookup obj n) := by
  have hne : ¬ n = ("_" ++ n) := fun h => underscored_ne n h.symm
  refine ⟨?_, ?_, ?_⟩
  · intro obj2 hset
    have hobj2 := DescriptorField.set_ok_eq f obj value obj2 hset
    rw [hn] at hobj2
    simp only [Option.getD_some] at hobj2
    subst hobj2
    refine ⟨rfl, ?_, ?_⟩
    · simp
    · simp [hne]
  · intro v obj2 hget
    rcases DescriptorField.get_ok_state f obj v obj2 hget with hsame | ⟨w, hins⟩
    · rw [hsame]
    · rw [hn] at hins
      simp only [Option.getD_some] at hins
      subst hins
      simp [hne]
  · intro obj2 hdel
    have hobj2 := DescriptorField.delete_ok_eq f obj obj2 hdel
    rw [hn] at hobj2
    simp only [Option.getD_some] at hobj2
    subst hobj2
    refine ⟨rfl, ?_⟩
    simp [hne]

/-- C10 witness. -/
theorem C10_storage_key_is_underscored_witness :
    [("_m", Val.int 5)] = dictInsert [] ("_" ++ "m") (Val.int 5) ∧
    dictLookup [("_m", Val.int 5)] ("_" ++ "m") = some (Val.int 5) ∧
    dictLookup [("_m", Val.int 5)] "m" = dictLookup [] "m" :=
  (C10_storage_key_is_underscored unsetField "m" [] (Val.int 5) (by decide)).1
    [("_m", Val.int 5)] rfl

end Mixture
